import Mathlib

/-!
Verification development for the gh-renovate merge-workflow orchestrator.

The TypeScript sources are shallowly embedded as executable Lean
definitions.  Asynchronous host interactions (GitHub API calls) are
modelled by environments that supply the result of the k-th call of each
operation; traces of issued host calls and of status messages are
threaded explicitly so that properties about mutating calls and message
sequences can be stated.  Machine integers are modelled as Nat (none of
the verified properties depend on overflow), and fallible operations
return Except values.
-/

namespace GhRenovate

/-! ## String utilities

JavaScript's String.prototype.includes, modelled on the character list of
the string.  All strings involved are ASCII, for which String.toLower
agrees with JavaScript toLowerCase. -/

def charsStartWith : List Char → List Char → Bool
  | _, [] => true
  | [], _ :: _ => false
  | c :: cs, p :: ps => c == p && charsStartWith cs ps

def charsContain : List Char → List Char → Bool
  | [], pat => pat.isEmpty
  | c :: cs, pat => charsStartWith (c :: cs) pat || charsContain cs pat

/-- JS s.includes(pat). -/
def strIncludes (s pat : String) : Bool :=
  charsContain s.data pat.data

def charToLower (c : Char) : Char :=
  if 65 ≤ c.toNat ∧ c.toNat ≤ 90 then Char.ofNat (c.toNat + 32) else c

/-- JS s.toLowerCase(), for the ASCII strings this code base compares. -/
def strToLower (s : String) : String :=
  ⟨s.data.map charToLower⟩

/-! ## Data model (src/github/types.ts) -/

inductive PRState where
  | open
  | closed
deriving DecidableEq, Repr

structure PRHead where
  sha : String
  ref : String
deriving DecidableEq, Repr

structure PRBase where
  ref : String
deriving DecidableEq, Repr

structure PRLabel where
  name : String
deriving DecidableEq, Repr

structure PullRequest where
  number : Nat
  title : String
  body : Option String
  state : PRState
  merged : Bool
  draft : Bool
  mergeable : Option Bool
  mergeableState : String
  htmlUrl : String
  user : Option String
  head : PRHead
  base : PRBase
  labels : List PRLabel
deriving DecidableEq, Repr

/-- Check-run completion status: 'queued' | 'in_progress' | 'completed'. -/
inductive RunStatus where
  | queued
  | in_progress
  | completed
deriving DecidableEq, Repr

structure CheckDetail where
  name : String
  status : RunStatus
  conclusion : Option String
deriving DecidableEq, Repr

/-- Coarse state: 'pending' | 'success' | 'failure' | 'error'. -/
inductive CheckState where
  | pending
  | success
  | failure
  | error
deriving DecidableEq, Repr

structure ChecksStatus where
  state : CheckState
  total : Nat
  completed : Nat
  successful : Nat
  failed : Nat
  pending : Nat
  details : List CheckDetail
deriving DecidableEq, Repr

structure ReviewInfo where
  hasApproval : Bool
  approvedBy : List String
  changesRequested : Bool
  changesRequestedBy : List String
deriving DecidableEq, Repr

inductive MergeStatus where
  | merged
  | skipped
  | failed
deriving DecidableEq, Repr

structure MergeResultSummary where
  prNumber : Nat
  title : String
  status : MergeStatus
  reason : Option String
deriving DecidableEq, Repr

/-! ## Check-status evaluator (src/github/checks.ts)

getChecksStatus is embedded as a pure function of the two raw signal
lists fetched from the host: the check runs and the legacy commit
statuses. -/

/-- Raw native check run as consumed by getChecksStatus. -/
structure CheckRun where
  name : String
  status : RunStatus
  conclusion : Option String
deriving DecidableEq, Repr

/-- Raw legacy commit status as consumed by getChecksStatus. -/
structure CommitStatus where
  context : String
  state : String
deriving DecidableEq, Repr

/-- Accumulator of the two processing loops in getChecksStatus. -/
structure ChecksAcc where
  total : Nat
  completed : Nat
  successful : Nat
  failed : Nat
  pending : Nat
  details : List CheckDetail
deriving Repr

def ChecksAcc.init : ChecksAcc := ⟨0, 0, 0, 0, 0, []⟩

/-- One iteration of the check-runs loop (checks.ts lines 41-59). -/
def accCheckRun (acc : ChecksAcc) (run : CheckRun) : ChecksAcc :=
  let acc := { acc with
    total := acc.total + 1
    details := acc.details ++ [CheckDetail.mk run.name run.status run.conclusion] }
  if run.status = RunStatus.completed then
    let acc := { acc with completed := acc.completed + 1 }
    if run.conclusion = some "success" ∨ run.conclusion = some "skipped" ∨
        run.conclusion = some "neutral" then
      { acc with successful := acc.successful + 1 }
    else if run.conclusion = some "failure" ∨ run.conclusion = some "timed_out" ∨
        run.conclusion = some "cancelled" then
      { acc with failed := acc.failed + 1 }
    else
      acc
  else
    { acc with pending := acc.pending + 1 }

/-- One iteration of the commit-statuses loop (checks.ts lines 62-87). -/
def accCommitStatus (acc : ChecksAcc) (status : CommitStatus) : ChecksAcc :=
  if (acc.details.find? (fun d => d.name == status.context)).isSome then
    acc
  else
    let isCompleted := status.state ≠ "pending"
    let acc := { acc with
      total := acc.total + 1
      details := acc.details ++
        [CheckDetail.mk status.context
          (if isCompleted then RunStatus.completed else RunStatus.in_progress)
          (if status.state = "pending" then none else some status.state)] }
    if isCompleted then
      let acc := { acc with completed := acc.completed + 1 }
      if status.state = "success" then
        { acc with successful := acc.successful + 1 }
      else if status.state = "failure" ∨ status.state = "error" then
        { acc with failed := acc.failed + 1 }
      else
        acc
    else
      { acc with pending := acc.pending + 1 }

/-- Overall-state derivation (checks.ts lines 89-99). -/
def deriveState (acc : ChecksAcc) : CheckState :=
  if 0 < acc.failed then CheckState.failure
  else if 0 < acc.pending ∨ acc.completed < acc.total then CheckState.pending
  else if acc.successful = acc.total then CheckState.success
  else CheckState.error

def getChecksStatus (runs : List CheckRun) (statuses : List CommitStatus) :
    ChecksStatus :=
  let acc := (statuses.foldl accCommitStatus (runs.foldl accCheckRun ChecksAcc.init))
  { state := deriveState acc
    total := acc.total
    completed := acc.completed
    successful := acc.successful
    failed := acc.failed
    pending := acc.pending
    details := acc.details }

/-- formatFailedChecks (checks.ts lines 115-129). -/
def formatFailedChecks (status : ChecksStatus) : String :=
  let failedChecks := status.details.filter fun d =>
    d.conclusion = some "failure" ∨ d.conclusion = some "timed_out" ∨
    d.conclusion = some "cancelled" ∨ d.conclusion = some "error"
  if failedChecks.isEmpty then
    "No failed checks"
  else
    String.intercalate ", "
      (failedChecks.map fun c => c.name ++ " (" ++ (c.conclusion.getD "") ++ ")")

def areChecksPassing (status : ChecksStatus) : Bool :=
  status.state = CheckState.success

def areChecksPending (status : ChecksStatus) : Bool :=
  status.state = CheckState.pending

def areChecksFailing (status : ChecksStatus) : Bool :=
  status.state = CheckState.failure ∨ status.state = CheckState.error

def IGNORED_PENDING_CHECKS : List String :=
  ["renovate/stability-days"]

/-- Name-vs-list matching convention used on IGNORED_PENDING_CHECKS by
hasBlockingPendingChecks (checks.ts lines 175-179). -/
def nameMatchesIgnoredList (name : String) : Bool :=
  IGNORED_PENDING_CHECKS.any fun ignored =>
    strIncludes (strToLower name) (strToLower ignored)

/-- hasBlockingPendingChecks (checks.ts lines 164-183). -/
def hasBlockingPendingChecks (status : ChecksStatus) : Bool :=
  let pendingChecks := status.details.filter fun d => d.status ≠ RunStatus.completed
  if pendingChecks.isEmpty then
    false
  else
    !(pendingChecks.all fun check => nameMatchesIgnoredList check.name)

/-- hasStabilityDaysPending (checks.ts lines 188-194). -/
def hasStabilityDaysPending (status : ChecksStatus) : Bool :=
  status.details.any fun d =>
    strIncludes (strToLower d.name) "stability-days" && d.status ≠ RunStatus.completed

/-! ## Poller (src/utils/poller.ts)

The poll loop is embedded as a control-flow skeleton over an environment
that supplies, for the n-th loop iteration, the probe's outcome and the
clock readings taken at the top of the loop (line 59) and inside the
catch handler (line 94).  Sleeping and the interval schedule (the 1.2x
growth or a custom adjuster) only shape those wall-clock readings, which
the environment abstracts, so they do not appear separately.  The onPoll
observer is a side channel that does not affect control flow and is
omitted.  Probe failures are opaque values of type epsilon and are never
the PollingTimeoutError re-thrown at line 89-91, which only the loop
itself can raise (outside its own try block). -/

inductive PollCondResult where
  | cont
  | done
  | abort
deriving DecidableEq, Repr

inductive PollError (ε : Type) where
  | pollingTimeout (operation : String) (timeoutMs : Nat)
  | abortError (operation : String)
  | probeFailure (e : ε)
deriving DecidableEq, Repr

structure PollEnv (T ε : Type) where
  probe : Nat → Except ε T
  topTime : Nat → Nat
  catchTime : Nat → Nat

structure PollOptions (T : Type) where
  timeoutMs : Nat
  condition : T → PollCondResult
  operationName : String

/-- poll (poller.ts lines 50-103), with explicit fuel; none means the
loop was still running after the given number of iterations. -/
def pollRun {T ε : Type} (env : PollEnv T ε) (opts : PollOptions T) :
    Nat → Nat → Option (Except (PollError ε) T)
  | 0, _ => none
  | fuel+1, n =>
    if opts.timeoutMs ≤ env.topTime n then
      some (Except.error (PollError.pollingTimeout opts.operationName opts.timeoutMs))
    else
      match env.probe n with
      | Except.ok r =>
        match opts.condition r with
        | PollCondResult.done => some (Except.ok r)
        | PollCondResult.abort =>
          if opts.timeoutMs ≤ env.catchTime n then
            some (Except.error (PollError.abortError opts.operationName))
          else
            pollRun env opts fuel (n+1)
        | PollCondResult.cont => pollRun env opts fuel (n+1)
      | Except.error e =>
        if opts.timeoutMs ≤ env.catchTime n then
          some (Except.error (PollError.probeFailure e))
        else
          pollRun env opts fuel (n+1)

/-! ## Retry policy (src/utils/retry.ts, withRetry)

The operation is an attempt-indexed outcome function; shouldRetry stands
for the supplied retryCondition (or, when absent, the built-in
isTransientError classifier).  rlDelay supplies, per attempt, the
rate-limit wait max(0, resetAt - now) + 1000 when the failure is a
RateLimitError, and none otherwise.  The result carries the slept delays
and the number of attempts executed. -/

structure RetryOptions where
  maxAttempts : Nat
  initialDelayMs : Nat
  maxDelayMs : Nat
  backoffMultiplier : Nat
deriving Repr

/-- Attempt loop of withRetry (retry.ts lines 76-110); none in the first
component models throwing the undefined lastError when maxAttempts = 0. -/
def withRetryGo {T ε : Type} (fn : Nat → Except ε T) (shouldRetry : ε → Bool)
    (rlDelay : Nat → ε → Option Nat) (maxDelayMs backoffMultiplier : Nat) :
    Nat → Nat → Nat → Option (Except ε T) × List Nat × Nat
  | 0, _, _ => (none, [], 0)
  | k+1, idx, delay =>
    match fn idx with
    | Except.ok v => (some (Except.ok v), [], 1)
    | Except.error e =>
      if !(shouldRetry e) then
        (some (Except.error e), [], 1)
      else if k = 0 then
        (some (Except.error e), [], 1)
      else
        let d := (rlDelay idx e).getD delay
        let rest := withRetryGo fn shouldRetry rlDelay maxDelayMs backoffMultiplier
          k (idx+1) (min (d * backoffMultiplier) maxDelayMs)
        (rest.1, d :: rest.2.1, rest.2.2 + 1)

def withRetryRun {T ε : Type} (fn : Nat → Except ε T) (shouldRetry : ε → Bool)
    (rlDelay : Nat → ε → Option Nat) (opts : RetryOptions) :
    Option (Except ε T) × List Nat × Nat :=
  withRetryGo fn shouldRetry rlDelay opts.maxDelayMs opts.backoffMultiplier
    opts.maxAttempts 0 opts.initialDelayMs

/-! ## Pull-request operations (src/github/pulls.ts) -/

structure PRValidation where
  valid : Bool
  reason : Option String
deriving DecidableEq, Repr

/-- validatePRState (pulls.ts lines 236-254). -/
def validatePRState (pr : PullRequest) : PRValidation :=
  if pr.merged then { valid := false, reason := some "PR was already merged" }
  else if pr.state = PRState.closed then { valid := false, reason := some "PR was closed" }
  else if pr.draft then { valid := false, reason := some "PR is still in draft" }
  else if pr.mergeableState = "dirty" then { valid := false, reason := some "PR has merge conflicts" }
  else { valid := true, reason := none }

/-- needsRebase (pulls.ts lines 220-226). -/
def needsRebase (pr : PullRequest) : Bool :=
  pr.mergeableState = "behind" ∨ pr.mergeableState = "dirty" ∨ pr.mergeable = some false

inductive PRErrorCode where
  | PR_NOT_FOUND
  | PR_ALREADY_MERGED
  | PR_CLOSED
  | PR_HAS_CONFLICTS
  | PR_NOT_MERGEABLE
  | PR_CHECKS_FAILED
deriving DecidableEq, Repr

structure MergeResult where
  sha : String
  merged : Bool
  message : String
deriving DecidableEq, Repr

/-- Outcome of the raw client.pulls.merge call, supplied by the host. -/
inductive MergeApiOutcome where
  | ok (r : MergeResult)
  | httpFailure (status : Nat)
  | otherFailure (msg : String)
deriving DecidableEq, Repr

inductive MergeCall where
  | fetchPR
  | mergeApi
deriving DecidableEq, Repr

inductive MergePRError where
  | prState (code : PRErrorCode) (prNumber : Nat) (userMessage : String)
  | raw (httpStatus : Option Nat) (msg : String)
deriving DecidableEq, Repr

/-- mergePullRequest (pulls.ts lines 136-215).  pr is the fresh snapshot
returned by the leading getPullRequest call; api is the outcome of the
remote merge call, consulted only if it is issued.  The returned list
records the host calls made. -/
def mergePullRequest (prNumber : Nat) (pr : PullRequest) (api : MergeApiOutcome) :
    List MergeCall × Except MergePRError MergeResult :=
  let calls := [MergeCall.fetchPR]
  if pr.merged then
    (calls, Except.error (MergePRError.prState PRErrorCode.PR_ALREADY_MERGED prNumber
      "PR was already merged"))
  else if pr.state = PRState.closed then
    (calls, Except.error (MergePRError.prState PRErrorCode.PR_CLOSED prNumber
      "PR was closed"))
  else if pr.mergeableState = "dirty" then
    (calls, Except.error (MergePRError.prState PRErrorCode.PR_HAS_CONFLICTS prNumber
      "PR has merge conflicts that require manual resolution"))
  else if pr.mergeable = some false then
    (calls, Except.error (MergePRError.prState PRErrorCode.PR_NOT_MERGEABLE prNumber
      ("PR is not mergeable (state: " ++ pr.mergeableState ++ ")")))
  else
    let calls := calls ++ [MergeCall.mergeApi]
    match api with
    | MergeApiOutcome.ok r => (calls, Except.ok r)
    | MergeApiOutcome.httpFailure status =>
      if status = 405 then
        (calls, Except.error (MergePRError.prState PRErrorCode.PR_NOT_MERGEABLE prNumber
          "PR cannot be merged (method not allowed or requirements not met)"))
      else if status = 409 then
        (calls, Except.error (MergePRError.prState PRErrorCode.PR_HAS_CONFLICTS prNumber
          "Merge conflict detected"))
      else
        (calls, Except.error (MergePRError.raw (some status) ""))
    | MergeApiOutcome.otherFailure msg =>
      (calls, Except.error (MergePRError.raw none msg))

/-! ## Batch orchestrator (src/operations/orchestrator.ts)

orchestrateMerge's while loop is embedded as a step function on the
orchestrator state (work queue, deferred list, retried set, accumulated
results), generic over the single-PR progression: process pr isRetry is
the MergeResultSummary that processSinglePR produces for pr when pr is
(or is not) in the retried set at dequeue time.  The cosmetic
position/counter display and the inter-PR sleep are omitted. -/

inductive MergeMethod where
  | merge
  | squash
  | rebase
deriving DecidableEq, Repr

structure OrchestratorOptions where
  checkTimeoutMs : Nat
  rebaseTimeoutMs : Nat
  mergeMethod : MergeMethod
  continueOnError : Bool
  dryRun : Bool
deriving DecidableEq, Repr

/-- isRetriableReason (orchestrator.ts lines 367-378). -/
def isRetriableReason (reason : Option String) : Bool :=
  match reason with
  | none => false
  | some r =>
    let lowerReason := strToLower r
    strIncludes lowerReason "ci checks failed" ||
    strIncludes lowerReason "merge blocked" ||
    strIncludes lowerReason "needs rebase" ||
    strIncludes lowerReason "timeout"

structure OrchState where
  queue : List PullRequest
  deferred : List PullRequest
  retried : List Nat
  results : List MergeResultSummary
deriving DecidableEq, Repr

/-- One iteration of the while loop (orchestrator.ts lines 402-450). -/
def orchStep (process : PullRequest → Bool → MergeResultSummary) (s : OrchState) :
    OrchState :=
  match s.queue with
  | [] => s
  | pr :: rest =>
    let isRetry := s.retried.contains pr.number
    let result := process pr isRetry
    let recordNow :=
      if result.status = MergeStatus.merged then (s.results ++ [result], s.deferred)
      else if !isRetry && isRetriableReason result.reason then (s.results, s.deferred ++ [pr])
      else (s.results ++ [result], s.deferred)
    let results2 := recordNow.1
    let deferred2 := recordNow.2
    if rest.isEmpty && !deferred2.isEmpty then
      { queue := deferred2
        deferred := []
        retried := s.retried ++ deferred2.map (fun p => p.number)
        results := results2 }
    else
      { queue := rest, deferred := deferred2, retried := s.retried, results := results2 }

/-- Fuel-indexed run of the while loop; none if the loop was still
running after the given number of iterations. -/
def orchRun (process : PullRequest → Bool → MergeResultSummary) :
    Nat → OrchState → Option OrchState
  | 0, s => if s.queue.isEmpty then some s else none
  | fuel+1, s =>
    if s.queue.isEmpty then some s
    else orchRun process fuel (orchStep process s)

structure OrchestratorResult where
  processed : Nat
  merged : Nat
  skipped : Nat
  failed : Nat
  results : List MergeResultSummary
  dryRun : Bool
deriving DecidableEq, Repr

/-- orchestrateMerge (orchestrator.ts lines 383-465), generic over the
single-PR progression. -/
def orchestrateMerge (process : PullRequest → Bool → MergeResultSummary)
    (prs : List PullRequest) (dryRun : Bool) (fuel : Nat) :
    Option OrchestratorResult :=
  (orchRun process fuel
      { queue := prs, deferred := [], retried := [], results := [] }).map fun s =>
    { processed := s.results.length
      merged := (s.results.filter fun r => r.status = MergeStatus.merged).length
      skipped := (s.results.filter fun r => r.status = MergeStatus.skipped).length
      failed := (s.results.filter fun r => r.status = MergeStatus.failed).length
      results := s.results
      dryRun := dryRun }

/-! ## Single-PR progression (src/operations/orchestrator.ts, processSinglePR)

Host interactions are supplied by an environment indexed by per-operation
call counters.  Each poll-based wait (waitForChecks, the rebase wait) is
collapsed to its final outcome: one environment response, recorded as one
read-only host call; the messages emitted from inside poll onPoll
callbacks are likewise omitted.  The MergeBlockedError class is imported
by the orchestrator from errors/types.ts but that class is absent from
the available sources; RunError.mergeBlocked is modelled from the spec:
a generic "merge blocked" condition reported by the merge operation when
preconditions are not currently satisfiable. -/

inductive RunError where
  | prStateErr (code : PRErrorCode) (prNumber : Nat) (userMessage : String)
  | pollingTimeout (operation : String) (timeoutMs : Nat)
  | mergeBlocked (userMessage : String)
  | genericErr (msg : String)
deriving DecidableEq, Repr

/-- The Error.message of each modelled error class (errors/types.ts). -/
def RunError.message : RunError → String
  | RunError.prStateErr _ n msg => "PR #" ++ toString n ++ ": " ++ msg
  | RunError.pollingTimeout op ms => "Timeout waiting for " ++ op ++ " after " ++ toString ms ++ "ms"
  | RunError.mergeBlocked msg => msg
  | RunError.genericErr msg => msg

/-- isGhRenovateError: every modelled class except a plain Error. -/
def RunError.isGhRenovateError : RunError → Bool
  | RunError.genericErr _ => false
  | _ => true

/-- The userMessage of each modelled GhRenovateError class. -/
def RunError.userMessage : RunError → String
  | RunError.prStateErr _ _ msg => msg
  | RunError.pollingTimeout op ms =>
    "Timeout after " ++ toString ((ms + 500) / 1000) ++ "s waiting for " ++ op
  | RunError.mergeBlocked msg => msg
  | RunError.genericErr msg => msg

/-- Retriable-error test of the fail-safe loop (orchestrator.ts lines 339-341). -/
def isRetriableError (e : RunError) : Bool :=
  (match e with
   | RunError.mergeBlocked _ => true
   | _ => false) ||
  strIncludes e.message "needs rebase"

inductive HostCall where
  | getPullRequest (prNumber : Nat)
  | getChecksStatus (sha : String)
  | getReviewInfo (prNumber : Nat)
  | approvePullRequest (prNumber : Nat)
  | triggerRebase (prNumber : Nat)
  | pollNewCommit (prNumber : Nat)
  | mergePR (prNumber : Nat)
deriving DecidableEq, Repr

def HostCall.isMutating : HostCall → Bool
  | HostCall.getPullRequest _ => false
  | HostCall.getChecksStatus _ => false
  | HostCall.getReviewInfo _ => false
  | HostCall.approvePullRequest _ => true
  | HostCall.triggerRebase _ => true
  | HostCall.pollNewCommit _ => false
  | HostCall.mergePR _ => true

structure HostEnv where
  fetchPR : Nat → Except RunError PullRequest
  checks : Nat → Except RunError ChecksStatus
  waitChecks : Nat → Except RunError ChecksStatus
  review : Nat → Except RunError ReviewInfo
  approve : Nat → Except RunError Unit
  rebase : Nat → Except RunError String
  waitRebase : Nat → Except RunError Unit
  merge : Nat → Except RunError Unit

/-- Per-operation call counters plus the call and message traces. -/
structure RunSt where
  nFetch : Nat
  nChecks : Nat
  nWaitChecks : Nat
  nReview : Nat
  nApprove : Nat
  nRebase : Nat
  nWaitRebase : Nat
  nMerge : Nat
  calls : List HostCall
  messages : List String
deriving DecidableEq, Repr

def RunSt.init : RunSt :=
  { nFetch := 0, nChecks := 0, nWaitChecks := 0, nReview := 0, nApprove := 0
    nRebase := 0, nWaitRebase := 0, nMerge := 0, calls := [], messages := [] }

/-- ui.updateStatus. -/
def emit (s : RunSt) (m : String) : RunSt :=
  { s with messages := s.messages ++ [m] }

def fetchPRCall (env : HostEnv) (prNumber : Nat) (s : RunSt) :
    Except RunError PullRequest × RunSt :=
  (env.fetchPR s.nFetch,
   { s with nFetch := s.nFetch + 1, calls := s.calls ++ [HostCall.getPullRequest prNumber] })

def checksCall (env : HostEnv) (sha : String) (s : RunSt) :
    Except RunError ChecksStatus × RunSt :=
  (env.checks s.nChecks,
   { s with nChecks := s.nChecks + 1, calls := s.calls ++ [HostCall.getChecksStatus sha] })

/-- waitForChecks (orchestrator.ts lines 59-91) collapsed to its final
polled ChecksStatus (or a thrown error such as the CI polling timeout);
passed is areChecksPassing of that final status. -/
def waitForChecksCall (env : HostEnv) (sha : String) (s : RunSt) :
    Except RunError (ChecksStatus × Bool) × RunSt :=
  let s2 := { s with nWaitChecks := s.nWaitChecks + 1,
                     calls := s.calls ++ [HostCall.getChecksStatus sha] }
  match env.waitChecks s.nWaitChecks with
  | Except.error e => (Except.error e, s2)
  | Except.ok status => (Except.ok (status, areChecksPassing status), s2)

def reviewCall (env : HostEnv) (prNumber : Nat) (s : RunSt) :
    Except RunError ReviewInfo × RunSt :=
  (env.review s.nReview,
   { s with nReview := s.nReview + 1, calls := s.calls ++ [HostCall.getReviewInfo prNumber] })

def approveCall (env : HostEnv) (prNumber : Nat) (s : RunSt) :
    Except RunError Unit × RunSt :=
  (env.approve s.nApprove,
   { s with nApprove := s.nApprove + 1,
            calls := s.calls ++ [HostCall.approvePullRequest prNumber] })

def rebaseCall (env : HostEnv) (prNumber : Nat) (s : RunSt) :
    Except RunError String × RunSt :=
  (env.rebase s.nRebase,
   { s with nRebase := s.nRebase + 1, calls := s.calls ++ [HostCall.triggerRebase prNumber] })

/-- The poll for a new head commit (hasNewCommitSince), collapsed to its
outcome: ok when a new commit appeared, error on the rebase timeout. -/
def waitRebaseCall (env : HostEnv) (prNumber : Nat) (s : RunSt) :
    Except RunError Unit × RunSt :=
  (env.waitRebase s.nWaitRebase,
   { s with nWaitRebase := s.nWaitRebase + 1,
            calls := s.calls ++ [HostCall.pollNewCommit prNumber] })

def mergeCall (env : HostEnv) (prNumber : Nat) (s : RunSt) :
    Except RunError Unit × RunSt :=
  (env.merge s.nMerge,
   { s with nMerge := s.nMerge + 1, calls := s.calls ++ [HostCall.mergePR prNumber] })

/-- result.status / result.reason updates used by processSinglePR. -/
def setSkipped (r0 : MergeResultSummary) (reason : String) : MergeResultSummary :=
  { r0 with status := MergeStatus.skipped, reason := some reason }

def setSkippedOpt (r0 : MergeResultSummary) (reason : Option String) : MergeResultSummary :=
  { r0 with status := MergeStatus.skipped, reason := reason }

def setMerged (r0 : MergeResultSummary) : MergeResultSummary :=
  { r0 with status := MergeStatus.merged }

def setMergedReason (r0 : MergeResultSummary) (reason : String) : MergeResultSummary :=
  { r0 with status := MergeStatus.merged, reason := some reason }

def setFailed (r0 : MergeResultSummary) (reason : String) : MergeResultSummary :=
  { r0 with status := MergeStatus.failed, reason := some reason }

/-- Rebase handling shared by steps 5 and 6 (orchestrator.ts lines
184-217 and 228-259), after the step-specific leading message: trigger,
announce the mechanism, wait for the new commit, re-fetch, wait for CI on
the new head; a CI failure is a terminal skip, ok none means fall
through to the next step. -/
def rebaseBlock (env : HostEnv) (prNumber : Nat) (result0 : MergeResultSummary)
    (s : RunSt) : Except RunError (Option MergeResultSummary) × RunSt :=
  match rebaseCall env prNumber s with
  | (Except.error e, s) => (Except.error e, s)
  | (Except.ok method, s) =>
    let s := emit s ("Rebase triggered via " ++ method ++ ", waiting...")
    match waitRebaseCall env prNumber s with
    | (Except.error e, s) => (Except.error e, s)
    | (Except.ok _, s) =>
      match fetchPRCall env prNumber s with
      | (Except.error e, s) => (Except.error e, s)
      | (Except.ok freshPR, s) =>
        match waitForChecksCall env freshPR.head.sha s with
        | (Except.error e, s) => (Except.error e, s)
        | (Except.ok (cs, passed), s) =>
          if passed then (Except.ok none, s)
          else
            (Except.ok (some (setSkipped result0
              ("CI checks failed after rebase: " ++ formatFailedChecks cs))), s)

/-- Steps 5/6 (orchestrator.ts lines 178-218 and 222-260): re-fetch, and
if the snapshot needs a rebase either simulate (dry run) or run
rebaseBlock after the step-specific message. -/
def rebaseStep (env : HostEnv) (prNumber : Nat) (dryRun : Bool)
    (result0 : MergeResultSummary) (dryMsg liveMsg : String) (s : RunSt) :
    Except RunError (Option MergeResultSummary) × RunSt :=
  match fetchPRCall env prNumber s with
  | (Except.error e, s) => (Except.error e, s)
  | (Except.ok freshPR, s) =>
    if needsRebase freshPR then
      if dryRun then (Except.ok none, emit s dryMsg)
      else rebaseBlock env prNumber result0 (emit s liveMsg)
    else (Except.ok none, s)

/-- Merge attempt loop (orchestrator.ts lines 270-336); ok none means the
loop exhausted its 3 attempts and fell through to the next outer
fail-safe attempt. -/
def mergeLoop (env : HostEnv) (prNumber : Nat) (result0 : MergeResultSummary) :
    Nat → Nat → RunSt → Except RunError (Option MergeResultSummary) × RunSt
  | _, 0, s => (Except.ok none, s)
  | mergeAttempt, rem+1, s =>
    let s := emit s (if 1 < mergeAttempt then
      "Merging (attempt " ++ toString mergeAttempt ++ ")..." else "Merging...")
    match mergeCall env prNumber s with
    | (Except.ok _, s) =>
      (Except.ok (some (setMerged result0)), s)
    | (Except.error me, s) =>
      match me with
      | RunError.mergeBlocked _ =>
        let s := emit s "Merge blocked, re-evaluating PR state..."
        match fetchPRCall env prNumber s with
        | (Except.error e, s) => (Except.error e, s)
        | (Except.ok freshPR, s) =>
          if freshPR.merged then
            (Except.ok (some (setMergedReason result0 "PR was already merged")), s)
          else if freshPR.state = PRState.closed then
            (Except.ok (some (setSkipped result0 "PR was closed")), s)
          else
            match checksCall env freshPR.head.sha s with
            | (Except.error e, s) => (Except.error e, s)
            | (Except.ok cs, s) =>
              if hasStabilityDaysPending cs then
                (Except.ok (some (setSkipped result0 "Waiting for stability-days (skipped)")), s)
              else if areChecksPending cs then
                let s := emit s "New checks detected, waiting..."
                match waitForChecksCall env freshPR.head.sha s with
                | (Except.error e, s) => (Except.error e, s)
                | (Except.ok (cs2, passed), s) =>
                  if passed then mergeLoop env prNumber result0 (mergeAttempt+1) rem s
                  else
                    (Except.ok (some (setSkipped result0
                      ("CI checks failed: " ++ formatFailedChecks cs2))), s)
              else if needsRebase freshPR then
                (Except.error (RunError.genericErr "PR needs rebase after merge attempt"), s)
              else
                (Except.error me, s)
      | _ => (Except.error me, s)

/-- Step 1 and 2 of the progression (orchestrator.ts lines 119-129):
fetch the fresh snapshot and validate it; Sum.inl is a terminal skip,
Sum.inr hands the snapshot to the next step. -/
def fetchAndValidate (env : HostEnv) (pr : PullRequest)
    (result0 : MergeResultSummary) (s : RunSt) :
    Except RunError (Sum MergeResultSummary PullRequest) × RunSt :=
  let s := emit s "Fetching latest PR data..."
  match fetchPRCall env pr.number s with
  | (Except.error e, s) => (Except.error e, s)
  | (Except.ok freshPR, s) =>
    let validation := validatePRState freshPR
    if !validation.valid then
      (Except.ok (Sum.inl (setSkippedOpt result0 validation.reason)), s)
    else
      (Except.ok (Sum.inr freshPR), s)

/-- Step 3 of the progression (orchestrator.ts lines 131-162): check CI
status, skip on failure or an indefinitely pending stability check, wait
when pending; ok none falls through to the review step. -/
def ciGate (env : HostEnv) (sha : String) (result0 : MergeResultSummary) (s : RunSt) :
    Except RunError (Option MergeResultSummary) × RunSt :=
  let s := emit s "Checking CI status..."
  match checksCall env sha s with
  | (Except.error e, s) => (Except.error e, s)
  | (Except.ok cs, s) =>
    if areChecksFailing cs then
      (Except.ok (some (setSkipped result0
        ("CI checks failed: " ++ formatFailedChecks cs))), s)
    else if hasStabilityDaysPending cs then
      (Except.ok (some (setSkipped result0 "Waiting for stability-days (skipped)")), s)
    else if areChecksPending cs then
      let s := emit s "Waiting for CI checks..."
      match waitForChecksCall env sha s with
      | (Except.error e, s) => (Except.error e, s)
      | (Except.ok (cs2, passed), s) =>
        if passed then (Except.ok none, s)
        else
          (Except.ok (some (setSkipped result0
            ("CI checks failed: " ++ formatFailedChecks cs2))), s)
    else (Except.ok none, s)

/-- Step 4 of the progression (orchestrator.ts lines 164-175): fetch the
review info and approve (or simulate approving) when no approval is
outstanding. -/
def reviewGate (env : HostEnv) (prNumber : Nat) (dryRun : Bool) (s : RunSt) :
    Except RunError Unit × RunSt :=
  let s := emit s "Checking review status..."
  match reviewCall env prNumber s with
  | (Except.error e, s) => (Except.error e, s)
  | (Except.ok reviewInfo, s) =>
    if !reviewInfo.hasApproval then
      if dryRun then (Except.ok (), emit s "[DRY-RUN] Would approve PR...")
      else
        match approveCall env prNumber (emit s "Approving PR...") with
        | (Except.error e, s) => (Except.error e, s)
        | (Except.ok _, s) => (Except.ok (), s)
    else (Except.ok (), s)

/-- One pass of the try block of the fail-safe loop: steps 1-7
(orchestrator.ts lines 119-336).  ok (some r) is an early return of r;
ok none means the merge loop exhausted its attempts and control fell out
of the try block. -/
def attemptBody (env : HostEnv) (pr : PullRequest) (opts : OrchestratorOptions)
    (result0 : MergeResultSummary) (s : RunSt) :
    Except RunError (Option MergeResultSummary) × RunSt :=
  match fetchAndValidate env pr result0 s with
  | (Except.error e, s) => (Except.error e, s)
  | (Except.ok (Sum.inl r), s) => (Except.ok (some r), s)
  | (Except.ok (Sum.inr freshPR), s) =>
    match ciGate env freshPR.head.sha result0 s with
    | (Except.error e, s) => (Except.error e, s)
    | (Except.ok (some r), s) => (Except.ok (some r), s)
    | (Except.ok none, s) =>
      match reviewGate env pr.number opts.dryRun s with
      | (Except.error e, s) => (Except.error e, s)
      | (Except.ok _, s) =>
        match rebaseStep env pr.number opts.dryRun result0
            "[DRY-RUN] Would trigger rebase..." "Triggering rebase..." s with
        | (Except.error e, s) => (Except.error e, s)
        | (Except.ok (some r), s) => (Except.ok (some r), s)
        | (Except.ok none, s) =>
          let s := emit s "Final merge check..."
          match rebaseStep env pr.number opts.dryRun result0
              "[DRY-RUN] Would trigger rebase (PR is behind)..."
              "PR is behind, triggering rebase..." s with
          | (Except.error e, s) => (Except.error e, s)
          | (Except.ok (some r), s) => (Except.ok (some r), s)
          | (Except.ok none, s) =>
            if opts.dryRun then
              (Except.ok (some (setMerged result0)),
               emit s "[DRY-RUN] Would merge PR...")
            else
              mergeLoop env pr.number result0 1 3 s

def MAX_PROCESS_RETRIES : Nat := 3

/-- Fail-safe retry loop of processSinglePR (orchestrator.ts lines
112-361); rem is the number of remaining iterations. -/
def processLoop (env : HostEnv) (pr : PullRequest) (opts : OrchestratorOptions)
    (result0 : MergeResultSummary) :
    Nat → Nat → RunSt → MergeResultSummary × RunSt
  | _, 0, s => (result0, s)
  | attempt, rem+1, s =>
    let s := if 1 < attempt then
      emit s ("Retrying from start (attempt " ++ toString attempt ++ "/" ++
        toString MAX_PROCESS_RETRIES ++ ")...")
      else s
    match attemptBody env pr opts result0 s with
    | (Except.ok (some result), s) => (result, s)
    | (Except.ok none, s) => processLoop env pr opts result0 (attempt+1) rem s
    | (Except.error e, s) =>
      if isRetriableError e && decide (attempt < MAX_PROCESS_RETRIES) then
        processLoop env pr opts result0 (attempt+1) rem
          (emit s ("Error occurred, will retry: " ++ e.message))
      else
        (setFailed result0 (if e.isGhRenovateError then e.userMessage else e.message), s)

/-- processSinglePR (orchestrator.ts lines 97-362). -/
def processSinglePR (env : HostEnv) (pr : PullRequest) (opts : OrchestratorOptions) :
    MergeResultSummary × RunSt :=
  processLoop env pr opts
    { prNumber := pr.number, title := pr.title, status := MergeStatus.failed, reason := none }
    1 MAX_PROCESS_RETRIES RunSt.init

/-! ## Theorems -/

/-! ### C8: hasStabilityDaysPending vs the configured ignorable-check list -/

def c8Status : ChecksStatus :=
  { state := CheckState.pending, total := 1, completed := 0, successful := 0, failed := 0,
    pending := 1,
    details := [{ name := "npm/stability-days", status := RunStatus.queued, conclusion := none }] }

/-- C8 counterexample: the check named "npm/stability-days" is incomplete
and makes hasStabilityDaysPending true, yet its name does not match the
configured ignorable-check list (whose sole entry is
"renovate/stability-days", matched by substring as in
hasBlockingPendingChecks).  So the claimed iff with list matching fails. -/
theorem hasStabilityDaysPending_not_list_matching :
    hasStabilityDaysPending c8Status = true ∧
    ¬ ∃ d ∈ c8Status.details, d.status ≠ RunStatus.completed ∧
        nameMatchesIgnoredList d.name = true := by
  constructor
  · decide
  · decide

/-- C8 (amended): hasStabilityDaysPending is true iff some check whose
completion status is not completed has a name containing the substring
"stability-days" (case-insensitively), regardless of all other checks;
the configured IGNORED_PENDING_CHECKS list is not consulted. -/
theorem hasStabilityDaysPending_iff (status : ChecksStatus) :
    hasStabilityDaysPending status = true ↔
    ∃ d ∈ status.details,
      strIncludes (strToLower d.name) "stability-days" = true ∧
      d.status ≠ RunStatus.completed := by
  simp [hasStabilityDaysPending, List.any_eq_true, Bool.and_eq_true, decide_eq_true_eq]

/-! ### C2: abort result handling in poll (code bug)

poll's abort branch (poller.ts line 77) throws inside the loop's own try
block, and the catch at lines 87-97 swallows any non-PollingTimeoutError
failure whenever the timeout has not yet been exceeded.  So a condition
returning abort does not fail the poll with the abort error; polling
continues, and the invocation ultimately fails with the generic timeout
error. -/

def pollAbortEnv : PollEnv Unit String :=
  { probe := fun _ => Except.ok ()
    topTime := fun n => 10 * n
    catchTime := fun n => 10 * n }

def pollAbortOpts : PollOptions Unit :=
  { timeoutMs := 100
    condition := fun _ => PollCondResult.abort
    operationName := "CI checks" }

/-- C2 failing input evaluated: with the condition returning abort on the
very first poll and 100ms of budget left, the loop does not terminate on
that iteration (it swallows its own abort error and keeps polling), and
the run ends with the generic polling-timeout error instead of the abort
error. -/
theorem poll_abort_error_swallowed :
    pollRun pollAbortEnv pollAbortOpts 1 0 = none ∧
    pollRun pollAbortEnv pollAbortOpts 20 0 =
      some (Except.error (PollError.pollingTimeout "CI checks" 100)) :=
  ⟨rfl, rfl⟩

/-! ### C6: probe failures are swallowed, except at timeout -/

/-- C6: if the probe throws on iteration n (before the timeout was hit at
the top of the loop), the failure is swallowed and polling continues,
unless the clock read in the catch handler has already reached the
timeout, in which case the probe's own failure is re-raised instead of
the generic timeout error. -/
theorem poll_probe_failure_handling {T ε : Type} (env : PollEnv T ε)
    (opts : PollOptions T) (n fuel : Nat) (e : ε)
    (htop : env.topTime n < opts.timeoutMs)
    (hprobe : env.probe n = Except.error e) :
    (env.catchTime n < opts.timeoutMs →
      pollRun env opts (fuel + 1) n = pollRun env opts fuel (n + 1)) ∧
    (opts.timeoutMs ≤ env.catchTime n →
      pollRun env opts (fuel + 1) n =
        some (Except.error (PollError.probeFailure e))) := by
  constructor
  · intro hc
    simp [pollRun, Nat.not_le.mpr htop, hprobe, Nat.not_le.mpr hc]
  · intro hc
    simp [pollRun, Nat.not_le.mpr htop, hprobe, hc]

def pollFailEnv : PollEnv Unit String :=
  { probe := fun _ => Except.error "econnreset"
    topTime := fun n => 40 * n
    catchTime := fun n => 40 * n + 110 }

def pollFailOpts : PollOptions Unit :=
  { timeoutMs := 100
    condition := fun _ => PollCondResult.done
    operationName := "CI checks" }

/-- C6 witness: a probe failure observed when the catch-time clock is
already past the timeout is re-raised as the poll's outcome. -/
theorem poll_probe_failure_handling_witness :
    pollFailEnv.topTime 0 < pollFailOpts.timeoutMs ∧
    pollFailEnv.probe 0 = Except.error "econnreset" ∧
    pollFailOpts.timeoutMs ≤ pollFailEnv.catchTime 0 ∧
    pollRun pollFailEnv pollFailOpts 1 0 =
      some (Except.error (PollError.probeFailure "econnreset")) :=
  ⟨by decide, rfl, by decide,
    (poll_probe_failure_handling pollFailEnv pollFailOpts 0 0 "econnreset"
      (by decide) rfl).2 (by decide)⟩

/-! ### C7: retry policy on non-transient failures and exhaustion -/

lemma withRetryGo_exhaust {T ε : Type} (fn : Nat → Except ε T) (p : ε → Bool)
    (rl : Nat → ε → Option Nat) (maxD mult : Nat) (es : Nat → ε) :
    ∀ (k idx delay : Nat), 1 ≤ k →
      (∀ j < k, fn (idx + j) = Except.error (es (idx + j)) ∧ p (es (idx + j)) = true) →
      (withRetryGo fn p rl maxD mult k idx delay).1 =
        some (Except.error (es (idx + k - 1))) := by
  intro k
  induction k with
  | zero => omega
  | succ m ih =>
    intro idx delay _ hall
    have h0 := hall 0 (by omega)
    simp only [Nat.add_zero] at h0
    cases m with
    | zero =>
      simp [withRetryGo, h0.1, h0.2]
    | succ m2 =>
      have hrec := ih (idx + 1) (min (((rl idx (es idx)).getD delay) * mult) maxD)
        (by omega) (fun j hj => by
          have h3 := hall (j + 1) (by omega)
          have h4 : idx + (j + 1) = idx + 1 + j := by omega
          rw [h4] at h3
          exact h3)
      have h5 : ¬(m2 + 1 = 0) := by omega
      conv_lhs => rw [withRetryGo]
      rw [h0.1]
      simp only [h0.2, Bool.not_true, Bool.false_eq_true, if_false, h5]
      rw [hrec]
      have h6 : idx + 1 + (m2 + 1) - 1 = idx + (m2 + 1 + 1) - 1 := by omega
      rw [h6]

/-- C7: a failure the retry predicate classifies as non-transient is
propagated unchanged after a single attempt, with no sleep and no
further attempts; and when every attempt fails with a transient
failure, exhausting maxAttempts propagates the most recent failure
unchanged. -/
theorem withRetry_nontransient_and_exhaustion {T ε : Type} (fn : Nat → Except ε T)
    (shouldRetry : ε → Bool) (rlDelay : Nat → ε → Option Nat)
    (opts : RetryOptions) (e : ε) (es : Nat → ε) :
    (fn 0 = Except.error e → shouldRetry e = false → 1 ≤ opts.maxAttempts →
      withRetryRun fn shouldRetry rlDelay opts = (some (Except.error e), [], 1)) ∧
    ((∀ i < opts.maxAttempts,
        fn i = Except.error (es i) ∧ shouldRetry (es i) = true) →
      1 ≤ opts.maxAttempts →
      (withRetryRun fn shouldRetry rlDelay opts).1 =
        some (Except.error (es (opts.maxAttempts - 1)))) := by
  constructor
  · intro hf hp hmax
    unfold withRetryRun
    obtain ⟨k, hk⟩ : ∃ k, opts.maxAttempts = k + 1 :=
      ⟨opts.maxAttempts - 1, by omega⟩
    rw [hk]
    simp [withRetryGo, hf, hp]
  · intro hall hmax
    unfold withRetryRun
    have := withRetryGo_exhaust fn shouldRetry rlDelay opts.maxDelayMs
      opts.backoffMultiplier es opts.maxAttempts 0 opts.initialDelayMs hmax
      (fun j hj => by simpa using hall j hj)
    simpa using this

def c7FailFn : Nat → Except String Unit := fun _ => Except.error "boom"

/-- C7 witness: with a classifier that always refuses and a classifier
that always accepts, the concrete failing operation exhibits both halves
of the theorem at maxAttempts = 3. -/
theorem withRetry_nontransient_and_exhaustion_witness :
    (c7FailFn 0 = Except.error "boom" ∧
      withRetryRun c7FailFn (fun _ => false) (fun _ _ => none)
        { maxAttempts := 3, initialDelayMs := 1000, maxDelayMs := 30000, backoffMultiplier := 2 } =
        (some (Except.error "boom"), [], 1)) ∧
    (withRetryRun c7FailFn (fun _ => true) (fun _ _ => none)
        { maxAttempts := 3, initialDelayMs := 1000, maxDelayMs := 30000, backoffMultiplier := 2 }).1 =
      some (Except.error "boom") :=
  ⟨⟨rfl,
    (withRetry_nontransient_and_exhaustion c7FailFn (fun _ => false) (fun _ _ => none)
      { maxAttempts := 3, initialDelayMs := 1000, maxDelayMs := 30000, backoffMultiplier := 2 }
      "boom" (fun _ => "boom")).1 rfl rfl (by decide)⟩,
    (withRetry_nontransient_and_exhaustion c7FailFn (fun _ => true) (fun _ _ => none)
      { maxAttempts := 3, initialDelayMs := 1000, maxDelayMs := 30000, backoffMultiplier := 2 }
      "boom" (fun _ => "boom")).2 (fun i _ => ⟨rfl, rfl⟩) (by decide)⟩

/-! ### C10: mergePullRequest precondition gating -/

/-- C10: mergePullRequest validates the freshly fetched snapshot and, in
order, raises the already-merged, closed, has-conflicts (dirty
mergeability detail) or not-mergeable PR-state error without issuing the
remote merge call; the mutating merge call is issued exactly when the
snapshot is open, unmerged, not dirty and not explicitly non-mergeable. -/
theorem mergePullRequest_precondition_gating (prNumber : Nat)
    (pr : PullRequest) (api : MergeApiOutcome) :
    (pr.merged = true →
      mergePullRequest prNumber pr api =
        ([MergeCall.fetchPR], Except.error (MergePRError.prState
          PRErrorCode.PR_ALREADY_MERGED prNumber "PR was already merged"))) ∧
    (pr.merged = false → pr.state = PRState.closed →
      mergePullRequest prNumber pr api =
        ([MergeCall.fetchPR], Except.error (MergePRError.prState
          PRErrorCode.PR_CLOSED prNumber "PR was closed"))) ∧
    (pr.merged = false → pr.state ≠ PRState.closed → pr.mergeableState = "dirty" →
      mergePullRequest prNumber pr api =
        ([MergeCall.fetchPR], Except.error (MergePRError.prState
          PRErrorCode.PR_HAS_CONFLICTS prNumber
          "PR has merge conflicts that require manual resolution"))) ∧
    (pr.merged = false → pr.state ≠ PRState.closed → pr.mergeableState ≠ "dirty" →
      pr.mergeable = some false →
      mergePullRequest prNumber pr api =
        ([MergeCall.fetchPR], Except.error (MergePRError.prState
          PRErrorCode.PR_NOT_MERGEABLE prNumber
          ("PR is not mergeable (state: " ++ pr.mergeableState ++ ")")))) ∧
    (MergeCall.mergeApi ∈ (mergePullRequest prNumber pr api).1 ↔
      (pr.merged = false ∧ pr.state ≠ PRState.closed ∧
        pr.mergeableState ≠ "dirty" ∧ pr.mergeable ≠ some false)) := by
  refine ⟨?_, ?_, ?_, ?_, ?_⟩
  · intro h1
    simp [mergePullRequest, h1]
  · intro h1 h2
    simp [mergePullRequest, h1, h2]
  · intro h1 h2 h3
    simp [mergePullRequest, h1, h2, h3]
  · intro h1 h2 h3 h4
    simp [mergePullRequest, h1, h2, h3, h4]
  · constructor
    · intro hmem
      by_cases h1 : pr.merged <;> by_cases h2 : pr.state = PRState.closed <;>
        by_cases h3 : pr.mergeableState = "dirty" <;>
        by_cases h4 : pr.mergeable = some false <;>
        simp_all [mergePullRequest]
    · rintro ⟨h1, h2, h3, h4⟩
      cases api with
      | ok r => simp [mergePullRequest, h1, h2, h3, h4]
      | httpFailure status =>
        by_cases h5 : status = 405 <;> by_cases h6 : status = 409 <;>
          simp [mergePullRequest, h1, h2, h3, h4, h5, h6]
      | otherFailure msg => simp [mergePullRequest, h1, h2, h3, h4]

def c10MergedPR : PullRequest :=
  { number := 7, title := "chore(deps): update dep", body := none, state := PRState.open,
    merged := true, draft := false, mergeable := some true, mergeableState := "clean",
    htmlUrl := "", user := none, head := { sha := "abc", ref := "renovate/dep" },
    base := { ref := "main" }, labels := [] }

/-- C10 witness: an already-merged snapshot yields the already-merged
PR-state error with only the fetch call issued, and an unblocked open
snapshot issues the merge call. -/
theorem mergePullRequest_precondition_gating_witness :
    c10MergedPR.merged = true ∧
    mergePullRequest 7 c10MergedPR (MergeApiOutcome.ok { sha := "abc", merged := true, message := "" }) =
      ([MergeCall.fetchPR], Except.error (MergePRError.prState
        PRErrorCode.PR_ALREADY_MERGED 7 "PR was already merged")) ∧
    MergeCall.mergeApi ∈ (mergePullRequest 7 { c10MergedPR with merged := false }
      (MergeApiOutcome.ok { sha := "abc", merged := true, message := "" })).1 :=
  ⟨rfl,
    (mergePullRequest_precondition_gating 7 c10MergedPR
      (MergeApiOutcome.ok { sha := "abc", merged := true, message := "" })).1 rfl,
    ((mergePullRequest_precondition_gating 7 { c10MergedPR with merged := false }
      (MergeApiOutcome.ok { sha := "abc", merged := true, message := "" })).2.2.2.2).mpr
      (by refine ⟨rfl, by decide, by decide, by decide⟩)⟩

/-! ### C5: coarse-state derivation of the check-status evaluator -/

def incompleteCount (details : List CheckDetail) : Nat :=
  (details.filter fun d => d.status ≠ RunStatus.completed).length

lemma accCheckRun_inv (acc : ChecksAcc) (run : CheckRun)
    (h1 : acc.completed + acc.pending = acc.total)
    (h2 : acc.pending = incompleteCount acc.details) :
    ((accCheckRun acc run).completed + (accCheckRun acc run).pending =
      (accCheckRun acc run).total) ∧
    ((accCheckRun acc run).pending = incompleteCount (accCheckRun acc run).details) := by
  unfold accCheckRun
  by_cases hc : run.status = RunStatus.completed <;>
    split_ifs <;>
    simp_all [incompleteCount, List.filter_append] <;> omega

lemma foldl_accCheckRun_inv (runs : List CheckRun) (acc : ChecksAcc)
    (h1 : acc.completed + acc.pending = acc.total)
    (h2 : acc.pending = incompleteCount acc.details) :
    ((runs.foldl accCheckRun acc).completed + (runs.foldl accCheckRun acc).pending =
      (runs.foldl accCheckRun acc).total) ∧
    ((runs.foldl accCheckRun acc).pending =
      incompleteCount (runs.foldl accCheckRun acc).details) := by
  induction runs generalizing acc with
  | nil => exact ⟨h1, h2⟩
  | cons r rs ih =>
    have h := accCheckRun_inv acc r h1 h2
    exact ih (accCheckRun acc r) h.1 h.2

lemma accCommitStatus_inv (acc : ChecksAcc) (st : CommitStatus)
    (h1 : acc.completed + acc.pending = acc.total)
    (h2 : acc.pending = incompleteCount acc.details) :
    ((accCommitStatus acc st).completed + (accCommitStatus acc st).pending =
      (accCommitStatus acc st).total) ∧
    ((accCommitStatus acc st).pending = incompleteCount (accCommitStatus acc st).details) := by
  simp only [accCommitStatus]
  split_ifs <;>
    simp_all [incompleteCount, List.filter_append] <;> omega

lemma foldl_accCommitStatus_inv (statuses : List CommitStatus) (acc : ChecksAcc)
    (h1 : acc.completed + acc.pending = acc.total)
    (h2 : acc.pending = incompleteCount acc.details) :
    ((statuses.foldl accCommitStatus acc).completed +
        (statuses.foldl accCommitStatus acc).pending =
      (statuses.foldl accCommitStatus acc).total) ∧
    ((statuses.foldl accCommitStatus acc).pending =
      incompleteCount (statuses.foldl accCommitStatus acc).details) := by
  induction statuses generalizing acc with
  | nil => exact ⟨h1, h2⟩
  | cons st sts ih =>
    have h := accCommitStatus_inv acc st h1 h2
    exact ih (accCommitStatus acc st) h.1 h.2

lemma deriveState_eq (acc : ChecksAcc) (h1 : acc.completed + acc.pending = acc.total) :
    deriveState acc =
      (if 0 < acc.failed then CheckState.failure
       else if 0 < acc.pending then CheckState.pending
       else if acc.successful = acc.total then CheckState.success
       else CheckState.error) := by
  unfold deriveState
  by_cases hf : 0 < acc.failed
  · rw [if_pos hf, if_pos hf]
  · rw [if_neg hf, if_neg hf]
    by_cases hp : 0 < acc.pending
    · rw [if_pos (Or.inl hp), if_pos hp]
    · have hor : ¬(0 < acc.pending ∨ acc.completed < acc.total) := by omega
      rw [if_neg hor, if_neg hp]

/-- C5: for every ChecksStatus the evaluator produces, the coarse state
follows the priority order: any failed check yields failure, otherwise
any incomplete check (the pending count equals the number of incomplete
details) yields pending, otherwise all complete and all successful
yields success, otherwise error; hence failing and passing are mutually
exclusive and exactly one of the four coarse states holds. -/
theorem checksStatus_state_derivation (runs : List CheckRun)
    (statuses : List CommitStatus) :
    ((getChecksStatus runs statuses).state =
      (if 0 < (getChecksStatus runs statuses).failed then CheckState.failure
       else if 0 < (getChecksStatus runs statuses).pending then CheckState.pending
       else if (getChecksStatus runs statuses).successful =
           (getChecksStatus runs statuses).total then CheckState.success
       else CheckState.error)) ∧
    ((getChecksStatus runs statuses).completed + (getChecksStatus runs statuses).pending =
      (getChecksStatus runs statuses).total) ∧
    ((getChecksStatus runs statuses).pending =
      incompleteCount (getChecksStatus runs statuses).details) ∧
    (areChecksFailing (getChecksStatus runs statuses) = true ↔
      ((getChecksStatus runs statuses).state = CheckState.failure ∨
        (getChecksStatus runs statuses).state = CheckState.error)) ∧
    (areChecksPassing (getChecksStatus runs statuses) = true ↔
      (getChecksStatus runs statuses).state = CheckState.success) ∧
    (¬(areChecksFailing (getChecksStatus runs statuses) = true ∧
        areChecksPassing (getChecksStatus runs statuses) = true)) ∧
    ((if (getChecksStatus runs statuses).state = CheckState.success then 1 else 0) +
      (if (getChecksStatus runs statuses).state = CheckState.pending then 1 else 0) +
      (if (getChecksStatus runs statuses).state = CheckState.failure then 1 else 0) +
      (if (getChecksStatus runs statuses).state = CheckState.error then 1 else 0) = 1) := by
  have hinit1 : ChecksAcc.init.completed + ChecksAcc.init.pending = ChecksAcc.init.total := rfl
  have hinit2 : ChecksAcc.init.pending = incompleteCount ChecksAcc.init.details := rfl
  have hr := foldl_accCheckRun_inv runs ChecksAcc.init hinit1 hinit2
  have hs := foldl_accCommitStatus_inv statuses (runs.foldl accCheckRun ChecksAcc.init) hr.1 hr.2
  refine ⟨?_, hs.1, hs.2, ?_, ?_, ?_, ?_⟩
  · exact deriveState_eq _ hs.1
  · cases h : deriveState (statuses.foldl accCommitStatus (runs.foldl accCheckRun ChecksAcc.init)) <;>
      simp [getChecksStatus, areChecksFailing, h]
  · cases h : deriveState (statuses.foldl accCommitStatus (runs.foldl accCheckRun ChecksAcc.init)) <;>
      simp [getChecksStatus, areChecksPassing, h]
  · cases h : deriveState (statuses.foldl accCommitStatus (runs.foldl accCheckRun ChecksAcc.init)) <;>
      simp [getChecksStatus, areChecksFailing, areChecksPassing, h]
  · cases h : deriveState (statuses.foldl accCommitStatus (runs.foldl accCheckRun ChecksAcc.init)) <;>
      simp [getChecksStatus, h]

/-! ### C1: batch deferral policy and the three-PR scenario -/

def mkScenPR (n : Nat) : PullRequest :=
  { number := n, title := "chore(deps): update dep " ++ toString n, body := none,
    state := PRState.open, merged := false, draft := false, mergeable := some true,
    mergeableState := "clean", htmlUrl := "", user := none,
    head := { sha := "sha" ++ toString n, ref := "renovate/dep" ++ toString n },
    base := { ref := "main" }, labels := [] }

/-- Single-PR progression oracle for the scenario: PR 2 yields a
"merge blocked" skip on its first pass and merges on retry; the others
merge immediately. -/
def scenProcess (pr : PullRequest) (isRetry : Bool) : MergeResultSummary :=
  if pr.number = 2 && !isRetry then
    { prNumber := pr.number, title := pr.title, status := MergeStatus.skipped,
      reason := some "Merge blocked: base branch was modified" }
  else
    { prNumber := pr.number, title := pr.title, status := MergeStatus.merged, reason := none }

/-- C1: a non-merged outcome with a retriable reason on a PR's first pass
is deferred (results unchanged, the PR appended to the deferred list, and
while other PRs remain queued the deferred list does not re-enter the
queue); deferred PRs re-enter the queue only once the original queue is
exhausted; an outcome on a second pass (PR already in the retried set) is
always recorded; and the three-PR scenario where PR 2 is blocked once and
merges on retry ends with results ordered 1, 3, 2 and merged count 3. -/
theorem orchestrator_deferral :
    ((orchestrateMerge scenProcess [mkScenPR 1, mkScenPR 2, mkScenPR 3] false 10).map
        (fun r => ((r.results.map fun x => x.prNumber), r.merged, r.processed)) =
      some ([1, 3, 2], 3, 3)) ∧
    (∀ (process : PullRequest → Bool → MergeResultSummary) (s : OrchState)
        (pr : PullRequest) (rest : List PullRequest),
      s.queue = pr :: rest →
      s.retried.contains pr.number = false →
      (process pr false).status ≠ MergeStatus.merged →
      isRetriableReason (process pr false).reason = true →
      (orchStep process s).results = s.results ∧
      (rest ≠ [] → (orchStep process s).queue = rest ∧
        (orchStep process s).deferred = s.deferred ++ [pr])) ∧
    (∀ (process : PullRequest → Bool → MergeResultSummary) (s : OrchState)
        (pr : PullRequest) (rest : List PullRequest),
      s.queue = pr :: rest → rest ≠ [] →
      (orchStep process s).queue = rest) ∧
    (∀ (process : PullRequest → Bool → MergeResultSummary) (s : OrchState)
        (pr : PullRequest) (rest : List PullRequest),
      s.queue = pr :: rest →
      s.retried.contains pr.number = true →
      (orchStep process s).results = s.results ++ [process pr true]) := by
  refine ⟨by decide, ?_, ?_, ?_⟩
  · intro process s pr rest hq hret hst hretri
    have hmerged : ¬((process pr false).status = MergeStatus.merged) := hst
    have hret2 : pr.number ∉ s.retried := by simpa using hret
    constructor
    · simp [orchStep, hq, hret2, hmerged, hretri]
      split <;> simp
    · intro hrest
      simp [orchStep, hq, hret2, hmerged, hretri, hrest]
  · intro process s pr rest hq hrest
    have h5 : rest.isEmpty = false := by
      simp [List.isEmpty_iff, hrest]
    simp [orchStep, hq, h5]
  · intro process s pr rest hq hret
    have hret2 : pr.number ∈ s.retried := by simpa using hret
    simp [orchStep, hq, hret2]
    split <;> simp

/-- First-pass state for the C1 witness: PR 2 at the head of the queue,
PR 3 still queued, nothing retried. -/
def c1StateA : OrchState :=
  { queue := [mkScenPR 2, mkScenPR 3], deferred := [], retried := [], results := [] }

/-- Second-pass state for the C1 witness: PR 2 requeued and retried. -/
def c1StateB : OrchState :=
  { queue := [mkScenPR 2], deferred := [], retried := [2], results := [] }

/-- C1 witness: the deferral branch and the second-pass branch applied at
concrete states drawn from the scenario. -/
theorem orchestrator_deferral_witness :
    (c1StateA.queue = mkScenPR 2 :: [mkScenPR 3] ∧
      (orchStep scenProcess c1StateA).results = [] ∧
      (orchStep scenProcess c1StateA).deferred = [mkScenPR 2]) ∧
    ((orchStep scenProcess c1StateB).results = [scenProcess (mkScenPR 2) true]) := by
  refine ⟨⟨rfl, ?_, ?_⟩, ?_⟩
  · have h := (orchestrator_deferral.2.1 scenProcess c1StateA
      (mkScenPR 2) [mkScenPR 3] rfl (by decide) (by decide) (by decide)).1
    simpa [c1StateA] using h
  · have h := ((orchestrator_deferral.2.1 scenProcess c1StateA
      (mkScenPR 2) [mkScenPR 3] rfl (by decide) (by decide) (by decide)).2
      (by decide)).2
    simpa [c1StateA] using h
  · have h := orchestrator_deferral.2.2.2 scenProcess c1StateB
      (mkScenPR 2) [] rfl (by decide)
    simpa [c1StateB] using h

/-! ### C9: batch summary invariants -/

lemma results_length_split (l : List MergeResultSummary) :
    l.length = (l.filter fun r => r.status = MergeStatus.merged).length +
      (l.filter fun r => r.status = MergeStatus.skipped).length +
      (l.filter fun r => r.status = MergeStatus.failed).length := by
  induction l with
  | nil => rfl
  | cons a t ih =>
    cases h : a.status <;> simp [List.filter_cons, h, ih] <;> omega

/-- Multiset of PR numbers a state still owes or has recorded. -/
def stNums (s : OrchState) : Multiset Nat :=
  ((s.results.map fun r => r.prNumber : List Nat) : Multiset Nat) +
    ((s.queue.map fun p => p.number : List Nat) : Multiset Nat) +
    ((s.deferred.map fun p => p.number : List Nat) : Multiset Nat)

lemma orchStep_stNums (process : PullRequest → Bool → MergeResultSummary)
    (hnum : ∀ pr b, (process pr b).prNumber = pr.number) (s : OrchState) :
    stNums (orchStep process s) = stNums s := by
  obtain ⟨q, dfr, rtr, res⟩ := s
  cases q with
  | nil => rfl
  | cons pr rest =>
    have hpr := hnum pr (rtr.contains pr.number)
    simp only [stNums, orchStep]
    split_ifs with h1 h2 h3 h4 h5 <;>
      simp_all [List.isEmpty_iff, ← Multiset.coe_add, ← Multiset.cons_coe,
        ← Multiset.singleton_add] <;>
      try abel

lemma orchStep_qd (process : PullRequest → Bool → MergeResultSummary) (s : OrchState)
    (hqd : s.queue = [] → s.deferred = []) :
    (orchStep process s).queue = [] → (orchStep process s).deferred = [] := by
  obtain ⟨q, dfr, rtr, res⟩ := s
  cases q with
  | nil => exact fun _ => hqd rfl
  | cons pr rest =>
    simp only [orchStep]
    split_ifs with h1 h2 h3 h4 h5 <;> intro hq2 <;> simp_all [List.isEmpty_iff]

lemma orchRun_invariants (process : PullRequest → Bool → MergeResultSummary)
    (hnum : ∀ pr b, (process pr b).prNumber = pr.number) :
    ∀ (fuel : Nat) (s s' : OrchState), orchRun process fuel s = some s' →
      (s.queue = [] → s.deferred = []) →
      stNums s' = stNums s ∧ s'.queue = [] ∧ s'.deferred = [] := by
  intro fuel
  induction fuel with
  | zero =>
    intro s s' h hqd
    simp only [orchRun] at h
    rcases he : s.queue.isEmpty with _ | _
    · rw [he] at h
      simp at h
    · rw [he] at h
      simp at h
      subst h
      have hq : s.queue = [] := List.isEmpty_iff.mp he
      exact ⟨rfl, hq, hqd hq⟩
  | succ n ih =>
    intro s s' h hqd
    simp only [orchRun] at h
    rcases he : s.queue.isEmpty with _ | _
    · rw [he] at h
      simp at h
      have h2 := ih (orchStep process s) s' h (orchStep_qd process s hqd)
      exact ⟨h2.1.trans (orchStep_stNums process hnum s), h2.2⟩
    · rw [he] at h
      simp at h
      subst h
      have hq : s.queue = [] := List.isEmpty_iff.mp he
      exact ⟨rfl, hq, hqd hq⟩

/-- C9: whenever the batch orchestrator terminates, the summary satisfies
processed = length of the results list, processed = merged + skipped +
failed, and (given that the progression stamps each summary with its
PR's number, as processSinglePR does) the recorded PR numbers are
exactly the input PR numbers, each contributing one outcome record. -/
theorem orchestrate_summary_invariants
    (process : PullRequest → Bool → MergeResultSummary) (prs : List PullRequest)
    (dryRun : Bool) (fuel : Nat) (res : OrchestratorResult)
    (hnum : ∀ pr b, (process pr b).prNumber = pr.number)
    (h : orchestrateMerge process prs dryRun fuel = some res) :
    res.processed = res.results.length ∧
    res.processed = res.merged + res.skipped + res.failed ∧
    ((res.results.map fun r => r.prNumber : List Nat) : Multiset Nat) =
      ((prs.map fun p => p.number : List Nat) : Multiset Nat) := by
  unfold orchestrateMerge at h
  rcases hrun : orchRun process fuel
      { queue := prs, deferred := [], retried := [], results := [] } with _ | s'
  · rw [hrun] at h
    simp at h
  · rw [hrun] at h
    simp only [Option.map] at h
    injection h with h
    have hinv := orchRun_invariants process hnum fuel
      { queue := prs, deferred := [], retried := [], results := [] } s' hrun
      (by intro _; rfl)
    subst h
    refine ⟨rfl, ?_, ?_⟩
    · exact results_length_split s'.results
    · have h1 := hinv.1
      unfold stNums at h1
      rw [hinv.2.1, hinv.2.2] at h1
      simpa using h1

def c9Process (pr : PullRequest) (_ : Bool) : MergeResultSummary :=
  { prNumber := pr.number, title := pr.title, status := MergeStatus.merged, reason := none }

/-- C9 witness: a two-PR batch that merges everything, with the summary
invariants read off the theorem at that input. -/
theorem orchestrate_summary_invariants_witness :
    (∀ (pr : PullRequest) (b : Bool), (c9Process pr b).prNumber = pr.number) ∧
    (∃ res, orchestrateMerge c9Process [mkScenPR 1, mkScenPR 2] false 5 = some res ∧
      (res.processed = res.results.length ∧
        res.processed = res.merged + res.skipped + res.failed ∧
        ((res.results.map fun r => r.prNumber : List Nat) : Multiset Nat) =
          (([mkScenPR 1, mkScenPR 2].map fun p => p.number : List Nat) : Multiset Nat))) := by
  refine ⟨fun pr b => rfl, ?_⟩
  rcases hr : orchestrateMerge c9Process [mkScenPR 1, mkScenPR 2] false 5 with _ | res
  · exact absurd hr (by decide)
  · exact ⟨res, rfl, orchestrate_summary_invariants c9Process [mkScenPR 1, mkScenPR 2]
      false 5 res (fun pr b => rfl) hr⟩

/-! ### C4: an already-merged snapshot is a terminal skip with no mutations -/

/-- C4: when the fresh snapshot fetched at step 1 reports merged = true,
processSinglePR returns a skipped outcome whose reason says the PR was
already merged, and the whole run issues exactly the one read-only fetch
call, in particular zero mutating host calls. -/
theorem processSinglePR_alreadyMerged_skips (env : HostEnv) (pr : PullRequest)
    (opts : OrchestratorOptions) (fp : PullRequest)
    (hfetch : env.fetchPR 0 = Except.ok fp) (hm : fp.merged = true) :
    (processSinglePR env pr opts).1.status = MergeStatus.skipped ∧
    (processSinglePR env pr opts).1.reason = some "PR was already merged" ∧
    (processSinglePR env pr opts).2.calls = [HostCall.getPullRequest pr.number] ∧
    ((processSinglePR env pr opts).2.calls.filter HostCall.isMutating) = [] := by
  have hval : validatePRState fp =
      { valid := false, reason := some "PR was already merged" } := by
    unfold validatePRState
    rw [if_pos hm]
  refine ⟨?_, ?_, ?_, ?_⟩ <;>
    simp [processSinglePR, processLoop, attemptBody, fetchAndValidate, fetchPRCall,
      emit, RunSt.init, hfetch, hval, setSkippedOpt, HostCall.isMutating]

/-! ### C3: dry-run behaviour of the single-PR progression -/

def dryMergeMsg : String := "[DRY-RUN] Would merge PR..."

lemma retry_msg_ne_marker (a b : String) :
    ("Retrying from start (attempt " ++ a ++ "/" ++ b ++ ")...") ≠ dryMergeMsg := by
  intro h
  have h1 : ("Retrying from start (attempt " ++ a ++ "/" ++ b ++ ")...").data.head? =
      some 'R' := rfl
  rw [h] at h1
  exact absurd h1 (by decide)

lemma err_msg_ne_marker (m : String) :
    ("Error occurred, will retry: " ++ m) ≠ dryMergeMsg := by
  intro h
  have h1 : ("Error occurred, will retry: " ++ m).data.head? = some 'E' := rfl
  rw [h] at h1
  exact absurd h1 (by decide)

lemma fetchAndValidate_spec (env : HostEnv) (pr : PullRequest)
    (result0 : MergeResultSummary) (s : RunSt) :
    ((fetchAndValidate env pr result0 s).2.calls.filter HostCall.isMutating =
      s.calls.filter HostCall.isMutating) ∧
    (dryMergeMsg ∈ (fetchAndValidate env pr result0 s).2.messages ↔
      dryMergeMsg ∈ s.messages) ∧
    (∀ r, (fetchAndValidate env pr result0 s).1 = Except.ok (Sum.inl r) →
      r.status = MergeStatus.skipped) := by
  unfold fetchAndValidate fetchPRCall emit
  rcases h1 : env.fetchPR s.nFetch with e | fp
  · simp +decide [h1, List.filter_append, HostCall.isMutating, dryMergeMsg]
  · simp only [h1]
    split_ifs <;>
      simp_all +decide [List.filter_append, HostCall.isMutating, dryMergeMsg,
        setSkippedOpt]

lemma ciGate_spec (env : HostEnv) (sha : String) (result0 : MergeResultSummary)
    (s : RunSt) :
    ((ciGate env sha result0 s).2.calls.filter HostCall.isMutating =
      s.calls.filter HostCall.isMutating) ∧
    (dryMergeMsg ∈ (ciGate env sha result0 s).2.messages ↔ dryMergeMsg ∈ s.messages) ∧
    (∀ r, (ciGate env sha result0 s).1 = Except.ok (some r) →
      r.status = MergeStatus.skipped) := by
  unfold ciGate checksCall waitForChecksCall emit
  rcases h1 : env.checks s.nChecks with e | cs
  · simp +decide [h1, List.filter_append, HostCall.isMutating, dryMergeMsg]
  · simp only [h1]
    rcases h2 : env.waitChecks s.nWaitChecks with e2 | cs2 <;>
      simp only [h2] <;>
      split_ifs <;>
      simp_all +decide [List.filter_append, HostCall.isMutating, dryMergeMsg,
        setSkipped]

lemma reviewGate_dry (env : HostEnv) (prNumber : Nat) (s : RunSt) :
    ((reviewGate env prNumber true s).2.calls.filter HostCall.isMutating =
      s.calls.filter HostCall.isMutating) ∧
    (dryMergeMsg ∈ (reviewGate env prNumber true s).2.messages ↔
      dryMergeMsg ∈ s.messages) := by
  unfold reviewGate reviewCall emit
  rcases h1 : env.review s.nReview with e | ri
  · simp +decide [h1, List.filter_append, HostCall.isMutating, dryMergeMsg]
  · simp only [h1]
    split_ifs <;>
      simp_all +decide [List.filter_append, HostCall.isMutating, dryMergeMsg]

lemma rebaseStep_dry (env : HostEnv) (prNumber : Nat)
    (result0 : MergeResultSummary) (dmsg lmsg : String) (s : RunSt)
    (hmsg : ¬(dryMergeMsg = dmsg)) :
    ((rebaseStep env prNumber true result0 dmsg lmsg s).2.calls.filter HostCall.isMutating =
      s.calls.filter HostCall.isMutating) ∧
    (dryMergeMsg ∈ (rebaseStep env prNumber true result0 dmsg lmsg s).2.messages ↔
      dryMergeMsg ∈ s.messages) ∧
    (∀ r, (rebaseStep env prNumber true result0 dmsg lmsg s).1 ≠
      Except.ok (some r)) := by
  unfold rebaseStep fetchPRCall emit
  rcases h1 : env.fetchPR s.nFetch with e | fp
  · simp +decide [h1, List.filter_append, HostCall.isMutating, dryMergeMsg]
  · simp only [h1]
    split_ifs <;>
      simp_all +decide [List.filter_append, HostCall.isMutating, hmsg]

lemma attemptBody_dry (env : HostEnv) (pr : PullRequest) (opts : OrchestratorOptions)
    (result0 : MergeResultSummary) (s : RunSt) (hdry : opts.dryRun = true) :
    ((attemptBody env pr opts result0 s).2.calls.filter HostCall.isMutating =
      s.calls.filter HostCall.isMutating) ∧
    (dryMergeMsg ∈ (attemptBody env pr opts result0 s).2.messages ↔
      (dryMergeMsg ∈ s.messages ∨
        (attemptBody env pr opts result0 s).1 = Except.ok (some (setMerged result0)))) ∧
    (∀ r, (attemptBody env pr opts result0 s).1 = Except.ok (some r) →
      r.status = MergeStatus.merged → r = setMerged result0) := by
  unfold attemptBody
  rw [hdry]
  rcases h1 : fetchAndValidate env pr result0 s with ⟨res1, s1⟩
  have hs1 := fetchAndValidate_spec env pr result0 s
  rw [h1] at hs1
  have hf1 : s1.calls.filter HostCall.isMutating = s.calls.filter HostCall.isMutating :=
    hs1.1
  have hm1 : dryMergeMsg ∈ s1.messages ↔ dryMergeMsg ∈ s.messages := hs1.2.1
  rcases res1 with e | r1
  · exact ⟨hf1, by simp [hm1], by simp⟩
  rcases r1 with r | freshPR
  · have hr : r.status = MergeStatus.skipped := hs1.2.2 r rfl
    have hne : r ≠ setMerged result0 := by
      intro hh
      rw [hh] at hr
      simp [setMerged] at hr
    refine ⟨hf1, by simp [hm1, hne], ?_⟩
    intro r' h' hm'
    simp only [Except.ok.injEq, Option.some.injEq] at h'
    rw [← h'] at hm'
    rw [hr] at hm'
    exact absurd hm' (by simp)
  · simp only []
    rcases h2 : ciGate env freshPR.head.sha result0 s1 with ⟨res2, s2⟩
    have hs2 := ciGate_spec env freshPR.head.sha result0 s1
    rw [h2] at hs2
    have hf2 : s2.calls.filter HostCall.isMutating = s.calls.filter HostCall.isMutating :=
      hs2.1.trans hf1
    have hm2 : dryMergeMsg ∈ s2.messages ↔ dryMergeMsg ∈ s.messages := hs2.2.1.trans hm1
    rcases res2 with e | o2
    · exact ⟨hf2, by simp [hm2], by simp⟩
    rcases o2 with _ | r
    case some =>
      have hr : r.status = MergeStatus.skipped := hs2.2.2 r rfl
      have hne : r ≠ setMerged result0 := by
        intro hh
        rw [hh] at hr
        simp [setMerged] at hr
      refine ⟨hf2, by simp [hm2, hne], ?_⟩
      intro r' h' hm'
      simp only [Except.ok.injEq, Option.some.injEq] at h'
      rw [← h'] at hm'
      rw [hr] at hm'
      exact absurd hm' (by simp)
    case none =>
      simp only []
      rcases h3 : reviewGate env pr.number true s2 with ⟨res3, s3⟩
      have hs3 := reviewGate_dry env pr.number s2
      rw [h3] at hs3
      have hf3 : s3.calls.filter HostCall.isMutating =
          s.calls.filter HostCall.isMutating := hs3.1.trans hf2
      have hm3 : dryMergeMsg ∈ s3.messages ↔ dryMergeMsg ∈ s.messages :=
        hs3.2.trans hm2
      rcases res3 with e | u
      · exact ⟨hf3, by simp [hm3], by simp⟩
      simp only []
      rcases h4 : rebaseStep env pr.number true result0
          "[DRY-RUN] Would trigger rebase..." "Triggering rebase..." s3 with ⟨res4, s4⟩
      have hs4 := rebaseStep_dry env pr.number result0
        "[DRY-RUN] Would trigger rebase..." "Triggering rebase..." s3 (by decide)
      rw [h4] at hs4
      have hf4 : s4.calls.filter HostCall.isMutating =
          s.calls.filter HostCall.isMutating := hs4.1.trans hf3
      have hm4 : dryMergeMsg ∈ s4.messages ↔ dryMergeMsg ∈ s.messages :=
        hs4.2.1.trans hm3
      rcases res4 with e | o4
      · exact ⟨hf4, by simp [hm4], by simp⟩
      rcases o4 with _ | r
      case some => exact absurd rfl (hs4.2.2 r)
      case none =>
        simp only []
        rcases h5 : rebaseStep env pr.number true result0
            "[DRY-RUN] Would trigger rebase (PR is behind)..."
            "PR is behind, triggering rebase..."
            (emit s4 "Final merge check...") with ⟨res5, s5⟩
        have hs5 := rebaseStep_dry env pr.number result0
          "[DRY-RUN] Would trigger rebase (PR is behind)..."
          "PR is behind, triggering rebase..."
          (emit s4 "Final merge check...") (by decide)
        rw [h5] at hs5
        have hf5 : s5.calls.filter HostCall.isMutating =
            s.calls.filter HostCall.isMutating := by
          rw [hs5.1]
          simpa [emit] using hf4
        have hm5 : dryMergeMsg ∈ s5.messages ↔ dryMergeMsg ∈ s.messages := by
          rw [hs5.2.1]
          simp only [emit, List.mem_append]
          rw [show (dryMergeMsg ∈ ["Final merge check..."]) = False by
            simp +decide [dryMergeMsg]]
          simpa using hm4
        rcases res5 with e | o5
        · exact ⟨hf5, by simp [hm5], by simp⟩
        rcases o5 with _ | r
        case some => exact absurd rfl (hs5.2.2 r)
        case none =>
          refine ⟨by simpa [emit] using hf5, ?_, ?_⟩
          · simp [emit, dryMergeMsg]
          · intro r' h' _
            simp at h'
            exact h'.symm

lemma processLoop_dry (env : HostEnv) (pr : PullRequest) (opts : OrchestratorOptions)
    (result0 : MergeResultSummary) (hdry : opts.dryRun = true)
    (h0 : result0.status = MergeStatus.failed) :
    ∀ (rem attempt : Nat) (s : RunSt),
      ((processLoop env pr opts result0 attempt rem s).2.calls.filter HostCall.isMutating =
        s.calls.filter HostCall.isMutating) ∧
      (dryMergeMsg ∈ (processLoop env pr opts result0 attempt rem s).2.messages ↔
        (dryMergeMsg ∈ s.messages ∨
          (processLoop env pr opts result0 attempt rem s).1.status = MergeStatus.merged)) := by
  intro rem
  induction rem with
  | zero =>
    intro attempt s
    refine ⟨rfl, ?_⟩
    simp [processLoop, h0]
  | succ n ih =>
    intro attempt s
    simp only [processLoop]
    set s1 := (if 1 < attempt then
      emit s ("Retrying from start (attempt " ++ toString attempt ++ "/" ++
        toString MAX_PROCESS_RETRIES ++ ")...") else s) with hs1
    have hs1c : s1.calls = s.calls := by
      rw [hs1]
      split <;> rfl
    have hne1 : dryMergeMsg ≠ ("Retrying from start (attempt " ++ toString attempt ++
        "/" ++ toString MAX_PROCESS_RETRIES ++ ")...") :=
      (retry_msg_ne_marker (toString attempt) (toString MAX_PROCESS_RETRIES)).symm
    have hs1m : dryMergeMsg ∈ s1.messages ↔ dryMergeMsg ∈ s.messages := by
      rw [hs1]
      split
      · simp [emit, hne1]
      · exact Iff.rfl
    rcases hab : attemptBody env pr opts result0 s1 with ⟨res, s2⟩
    have hAB := attemptBody_dry env pr opts result0 s1 hdry
    rw [hab] at hAB
    have hf2 : s2.calls.filter HostCall.isMutating = s.calls.filter HostCall.isMutating := by
      have := hAB.1
      rw [hs1c] at this
      exact this
    have hm2 : dryMergeMsg ∈ s2.messages ↔
        (dryMergeMsg ∈ s.messages ∨ res = Except.ok (some (setMerged result0))) :=
      hAB.2.1.trans (or_congr hs1m Iff.rfl)
    rcases res with e | o
    · simp only []
      split_ifs with hretri
      · have ihh := ih (attempt + 1)
          (emit s2 ("Error occurred, will retry: " ++ e.message))
        refine ⟨?_, ?_⟩
        · rw [ihh.1]
          simpa [emit] using hf2
        · rw [ihh.2]
          have hm3 : dryMergeMsg ∈
              (emit s2 ("Error occurred, will retry: " ++ e.message)).messages ↔
              dryMergeMsg ∈ s.messages := by
            simp [emit, (err_msg_ne_marker e.message).symm]
            exact hm2.trans (by simp)
          exact or_congr hm3 Iff.rfl
      all_goals
        refine ⟨hf2, ?_⟩
        have hm3 : dryMergeMsg ∈ s2.messages ↔ dryMergeMsg ∈ s.messages :=
          hm2.trans (by simp)
        simpa [setFailed] using hm3
    · rcases o with _ | r
      case none =>
        simp only []
        have ihh := ih (attempt + 1) s2
        have hm3 : dryMergeMsg ∈ s2.messages ↔ dryMergeMsg ∈ s.messages :=
          hm2.trans (by simp)
        exact ⟨ihh.1.trans hf2, ihh.2.trans (or_congr hm3 Iff.rfl)⟩
      case some =>
        simp only []
        refine ⟨hf2, ?_⟩
        have hiff2 : (Except.ok (some r) : Except RunError (Option MergeResultSummary)) =
            Except.ok (some (setMerged result0)) ↔ r.status = MergeStatus.merged := by
          constructor
          · intro hh
            simp only [Except.ok.injEq, Option.some.injEq] at hh
            rw [hh]
            simp [setMerged]
          · intro hh
            rw [hAB.2.2 r rfl hh]
        exact hm2.trans (or_congr Iff.rfl hiff2)

/-- DEFAULT_OPTIONS (orchestrator.ts lines 36-42). -/
def DEFAULT_OPTIONS : OrchestratorOptions :=
  { checkTimeoutMs := 600000, rebaseTimeoutMs := 300000,
    mergeMethod := MergeMethod.squash, continueOnError := true, dryRun := false }

def c3PR : PullRequest :=
  { number := 11, title := "chore(deps): update example", body := none,
    state := PRState.open, merged := false, draft := false, mergeable := some true,
    mergeableState := "clean", htmlUrl := "", user := none,
    head := { sha := "c3sha", ref := "renovate/example" }, base := { ref := "main" },
    labels := [] }

def passingChecks : ChecksStatus :=
  { state := CheckState.success, total := 1, completed := 1, successful := 1,
    failed := 0, pending := 0,
    details := [{ name := "ci", status := RunStatus.completed, conclusion := some "success" }] }

def noApprovalReview : ReviewInfo :=
  { hasApproval := false, approvedBy := [], changesRequested := false,
    changesRequestedBy := [] }

/-- A healthy host: the PR is open, up to date, checks pass, no approval
yet, and every mutation would succeed. -/
def c3Env : HostEnv :=
  { fetchPR := fun _ => Except.ok c3PR
    checks := fun _ => Except.ok passingChecks
    waitChecks := fun _ => Except.ok passingChecks
    review := fun _ => Except.ok noApprovalReview
    approve := fun _ => Except.ok ()
    rebase := fun _ => Except.ok "checkbox"
    waitRebase := fun _ => Except.ok ()
    merge := fun _ => Except.ok () }

/-- C3 counterexample: on the same healthy host, the dry run and the live
run issue identical read-only call sequences, yet their status-message
sequences differ (the live run says "Approving PR..." and "Merging..."
where the dry run says the "[DRY-RUN] Would ..." variants), so the claim
that dry-run produces the same sequence of status messages as the live
run is false. -/
theorem dryRun_message_sequences_differ :
    (processSinglePR c3Env c3PR { DEFAULT_OPTIONS with dryRun := true }).2.messages ≠
      (processSinglePR c3Env c3PR DEFAULT_OPTIONS).2.messages ∧
    (processSinglePR c3Env c3PR { DEFAULT_OPTIONS with dryRun := true }).2.calls.filter
        (fun c => !(HostCall.isMutating c)) =
      (processSinglePR c3Env c3PR DEFAULT_OPTIONS).2.calls.filter
        (fun c => !(HostCall.isMutating c)) := by
  constructor
  · decide
  · decide

/-- C3 (amended): with the dry-run flag set, the single-PR progression
issues zero mutating host calls, and it reports the successful merged
outcome exactly when it announces "[DRY-RUN] Would merge PR..." - that
is, once a mutation would have been the only remaining action; its
read-only calls coincide with the live run's up to the point where the
runs diverge at the first substituted mutation, but the status-message
sequences are not literally equal. -/
theorem processSinglePR_dryRun_mutationFree (env : HostEnv) (pr : PullRequest)
    (opts : OrchestratorOptions) (hdry : opts.dryRun = true) :
    ((processSinglePR env pr opts).2.calls.filter HostCall.isMutating = []) ∧
    ((processSinglePR env pr opts).1.status = MergeStatus.merged ↔
      dryMergeMsg ∈ (processSinglePR env pr opts).2.messages) := by
  have h := processLoop_dry env pr opts
    { prNumber := pr.number, title := pr.title, status := MergeStatus.failed,
      reason := none } hdry rfl MAX_PROCESS_RETRIES 1 RunSt.init
  constructor
  · simpa [RunSt.init] using h.1
  · have h2 := h.2
    simp only [RunSt.init, List.not_mem_nil, false_or] at h2
    exact h2.symm

/-- C3 witness: the amended dry-run guarantees at the concrete healthy
host, where the dry run does reach and report the would-merge outcome. -/
theorem processSinglePR_dryRun_mutationFree_witness :
    ({ DEFAULT_OPTIONS with dryRun := true } : OrchestratorOptions).dryRun = true ∧
    ((processSinglePR c3Env c3PR { DEFAULT_OPTIONS with dryRun := true }).2.calls.filter
      HostCall.isMutating = []) ∧
    ((processSinglePR c3Env c3PR { DEFAULT_OPTIONS with dryRun := true }).1.status =
        MergeStatus.merged ↔
      dryMergeMsg ∈ (processSinglePR c3Env c3PR
        { DEFAULT_OPTIONS with dryRun := true }).2.messages) :=
  ⟨rfl, (processSinglePR_dryRun_mutationFree c3Env c3PR
      { DEFAULT_OPTIONS with dryRun := true } rfl).1,
    (processSinglePR_dryRun_mutationFree c3Env c3PR
      { DEFAULT_OPTIONS with dryRun := true } rfl).2⟩

/-- A host whose very first snapshot fetch reports the PR merged. -/
def c4Env : HostEnv :=
  { fetchPR := fun _ => Except.ok c10MergedPR
    checks := fun _ => Except.error (RunError.genericErr "unused")
    waitChecks := fun _ => Except.error (RunError.genericErr "unused")
    review := fun _ => Except.error (RunError.genericErr "unused")
    approve := fun _ => Except.error (RunError.genericErr "unused")
    rebase := fun _ => Except.error (RunError.genericErr "unused")
    waitRebase := fun _ => Except.error (RunError.genericErr "unused")
    merge := fun _ => Except.error (RunError.genericErr "unused") }

/-- C4 witness: the already-merged skip at a concrete host. -/
theorem processSinglePR_alreadyMerged_skips_witness :
    c4Env.fetchPR 0 = Except.ok c10MergedPR ∧ c10MergedPR.merged = true ∧
    ((processSinglePR c4Env c10MergedPR DEFAULT_OPTIONS).1.status = MergeStatus.skipped ∧
      (processSinglePR c4Env c10MergedPR DEFAULT_OPTIONS).1.reason =
        some "PR was already merged" ∧
      (processSinglePR c4Env c10MergedPR DEFAULT_OPTIONS).2.calls =
        [HostCall.getPullRequest c10MergedPR.number] ∧
      ((processSinglePR c4Env c10MergedPR DEFAULT_OPTIONS).2.calls.filter
        HostCall.isMutating) = []) :=
  ⟨rfl, rfl, processSinglePR_alreadyMerged_skips c4Env c10MergedPR DEFAULT_OPTIONS
    c10MergedPR rfl rfl⟩

end GhRenovate
